import Mathlib

/-!
Verification development for the `backend-energy` telemetry server
(`src/server.js`).  The definitions below are a shallow embedding of the
two ingestion paths (the MQTT `client.on("message")` handler and the
`app.post("/energy")` route), of the query route `app.get("/energy")`,
and of the persistence layer's observable behaviour.  Machine reals are
modelled as `ℚ`, timestamps as `Nat`, the Mongo collection as a Lean
list in insertion order.
-/

namespace BackendEnergy

/-- A JSON value as delivered to either ingestion path: a number, a
string, a boolean, or `null` (which also stands for an absent key once
the handler has applied `?? null`). -/
inductive JVal where
  | num (q : ℚ)
  | str (s : String)
  | bool (b : Bool)
  | null
deriving DecidableEq

/-- A raw JSON object payload: association list from key to value. -/
abbrev RawObj : Type := List (String × JVal)

/-- The nine sensor fields of `EnergySchema` (server.js lines 53-64),
in schema declaration order.  `timestamp` is not among them: it is a
server-side field with default `Date.now`. -/
def fieldNames : List String :=
  ["temperature", "humidity", "voltage", "current_20A", "current_30A",
   "sct013", "waterFlow", "gasDetected", "level"]

/-- The sensor part of one stored record, every field independently
nullable exactly as in `EnergySchema` (each declared
`{ type: Number, default: null }`). -/
structure SensorData where
  temperature : Option ℚ
  humidity : Option ℚ
  voltage : Option ℚ
  current_20A : Option ℚ
  current_30A : Option ℚ
  sct013 : Option ℚ
  waterFlow : Option ℚ
  gasDetected : Option ℚ
  level : Option ℚ
deriving DecidableEq

/-- One stored record of the `Energy` collection: the sensor fields
plus the `timestamp` field. -/
structure Reading where
  data : SensorData
  timestamp : Nat
deriving DecidableEq

/-- The stored collection, in insertion order (oldest first). -/
abbrev Store : Type := List Reading

/-- Split a character list at the first dot, returning the part before
it and, when a dot occurs, the part after it. -/
def splitDot : List Char → List Char × Option (List Char)
  | [] => ([], none)
  | c :: rest =>
    if c = '.' then ([], some rest)
    else
      match splitDot rest with
      | (ip, fp) => (c :: ip, fp)

/-- Parse a nonempty run of decimal digits as a natural number; any
other character (including a second dot) fails. -/
def parseNat? : List Char → Option Nat
  | [] => none
  | cs =>
    cs.foldl
      (fun acc c =>
        match acc with
        | some n => if c.isDigit then some (n * 10 + (c.toNat - 48)) else none
        | none => none)
      (some 0)

/-- Numeric reading of a string, modelling the decimal-literal core of
the JavaScript `Number(string)` conversion used both by Joi's `convert`
option and by Mongoose's `Number` cast: an optional leading minus sign,
digits, and an optional fractional part.  A string such as "hot"
yields `none`. -/
def parseNumStr (s : String) : Option ℚ :=
  let signSplit : Bool × List Char :=
    match s.toList with
    | '-' :: rest => (true, rest)
    | cs => (false, cs)
  let mag : Option ℚ :=
    match splitDot signSplit.2 with
    | (ip, none) => (parseNat? ip).map (fun n => (n : ℚ))
    | (ip, some fp) =>
      match parseNat? ip, parseNat? fp with
      | some n, some f => some ((n : ℚ) + (f : ℚ) / ((10 : ℚ) ^ fp.length))
      | _, _ => none
  mag.map (fun q => if signSplit.1 then -q else q)

/-- `Joi.number()` acceptance of one present value (with Joi's default
`convert: true`): numbers pass, numeric strings are converted, and
booleans, non-numeric strings and `null` are rejected. -/
def joiNumCast : JVal → Option ℚ
  | .num q => some q
  | .str s => parseNumStr s
  | .bool _ => none
  | .null => none

/-- Mongoose `Number`-path cast of one value: numbers pass, numeric
strings are converted, booleans cast to 1/0, `null` is kept as the
explicit unknown value, and a non-numeric string raises a cast error
that makes `save()` reject. -/
def mongooseCastNum : JVal → Except String (Option ℚ)
  | .num q => .ok (some q)
  | .str s =>
    match parseNumStr s with
    | some q => .ok (some q)
    | none => .error ("CastError")
  | .bool b => .ok (some (if b then 1 else 0))
  | .null => .ok none

/-- Value of key `k` in the payload, with absence collapsed to `null`
(the MQTT handler writes `data.k ?? null`; for the HTTP path an absent
key takes the schema default `null`, which is the same value). -/
def getField (obj : RawObj) (k : String) : JVal :=
  (obj.lookup k).getD JVal.null

/-- Construction of a new `EnergyModel` document from a payload: every
one of the nine declared fields is cast through the Mongoose `Number`
path, keys outside the schema are ignored, and any cast failure makes
the save reject.  Used by both ingestion paths. -/
def castAll (obj : RawObj) : Except String SensorData := do
  let t ← mongooseCastNum (getField obj ("temperature"))
  let h ← mongooseCastNum (getField obj ("humidity"))
  let v ← mongooseCastNum (getField obj ("voltage"))
  let c20 ← mongooseCastNum (getField obj ("current_20A"))
  let c30 ← mongooseCastNum (getField obj ("current_30A"))
  let sct ← mongooseCastNum (getField obj ("sct013"))
  let w ← mongooseCastNum (getField obj ("waterFlow"))
  let g ← mongooseCastNum (getField obj ("gasDetected"))
  let lv ← mongooseCastNum (getField obj ("level"))
  pure ⟨t, h, v, c20, c30, sct, w, g, lv⟩

/-- The stored document produced by a successful save at time `now`:
the cast sensor fields plus the `timestamp` default `Date.now`
(no caller on either path ever supplies a timestamp, so the default
always applies). -/
def mongooseBuild (obj : RawObj) (now : Nat) : Except String Reading :=
  (castAll obj).map (fun d => ⟨d, now⟩)

/-- Append one stored record to the collection (a Mongo insert). -/
def appendReading (store : Store) (r : Reading) : Store := store ++ [r]

/-- Log lines the MQTT handler can emit. -/
inductive LogEntry where
  | parseError
  | saveError
  | saveSuccess
deriving DecidableEq

/-- The MQTT `client.on("message")` handler (server.js lines 77-98).
`msg` is the outcome of `JSON.parse` on the payload (`none` when the
payload is not parseable JSON, in which case the catch block logs and
drops the message).  For a parsed object the handler copies the nine
declared fields with `?? null` and saves; a Mongoose cast failure is
caught by the save's `.catch` and logged, with nothing stored. -/
def busHandle (msg : Option RawObj) (store : Store) (now : Nat) :
    Store × List LogEntry :=
  match msg with
  | none => (store, [LogEntry.parseError])
  | some data =>
    match mongooseBuild data now with
    | .error _ => (store, [LogEntry.saveError])
    | .ok r => (appendReading store r, [LogEntry.saveSuccess])

/-- A field-level validation error: the offending field and the reason,
as carried by `error.details[0].message` (e.g. `"temperature" must be a
number`, `"foo" is not allowed`). -/
structure ValidationError where
  field : String
  reason : String
deriving DecidableEq

/-- Joi check of one schema field: an absent key is fine (`optional`),
a present value must pass the number cast. -/
def joiCheckField (obj : RawObj) (k : String) : Option ValidationError :=
  match obj.lookup k with
  | none => none
  | some v =>
    match joiNumCast v with
    | some _ => none
    | none => some ⟨k, "must be a number"⟩

/-- First error among a list of optional errors. -/
def firstSome : List (Option ValidationError) → Option ValidationError
  | [] => none
  | some e :: _ => some e
  | none :: rest => firstSome rest

/-- The `app.post("/energy")` Joi validation (server.js lines 150-163):
each declared field is an optional number, and - by Joi's default for
`Joi.object` - any key outside the schema is an error
(`"k" is not allowed`). -/
def apiValidate (obj : RawObj) : Option ValidationError :=
  match firstSome (fieldNames.map (joiCheckField obj)) with
  | some e => some e
  | none =>
    match obj.find? (fun kv => !(fieldNames.contains kv.1)) with
    | some kv => some ⟨kv.1, "is not allowed"⟩
    | none => none

/-- HTTP responses of `app.post("/energy")`. -/
inductive ApiResponse where
  | badRequest (e : ValidationError)
  | created (message : String)
  | serverError
deriving DecidableEq

/-- The fixed acknowledgement body sent on a successful save. -/
def savedMsg : String := "📊 تم حفظ البيانات بنجاح!"

/-- The `app.post("/energy")` handler (server.js lines 149-173):
validate the body, reject with status 400 and the first field-level
error detail on failure, otherwise save `new EnergyModel(req.body)` and
answer 201 with the fixed success message. -/
def apiPost (body : RawObj) (store : Store) (now : Nat) :
    ApiResponse × Store :=
  match apiValidate body with
  | some e => (.badRequest e, store)
  | none =>
    match mongooseBuild body now with
    | .error _ => (.serverError, store)
    | .ok r => (.created savedMsg, appendReading store r)

/-- Insert a record into a list already ordered by descending
timestamp, keeping it before every record of equal timestamp. -/
def insertDesc (r : Reading) : List Reading → List Reading
  | [] => [r]
  | x :: xs =>
    if r.timestamp < x.timestamp then x :: insertDesc r xs
    else r :: x :: xs

/-- Stable sort by descending timestamp: on input listed
most-recently-inserted first, records of equal timestamp keep that
order. -/
def sortDesc : List Reading → List Reading
  | [] => []
  | x :: xs => insertDesc x (sortDesc xs)

/-- The records of the collection ordered as the spec's Store contract
retrieves them: descending by timestamp, ties most-recently-inserted
first.  The descending sort itself is the query
`find().sort({timestamp:-1})`; the tie order among equal timestamps is
the one the spec fixes. -/
def byTimestampDesc (store : Store) : List Reading :=
  sortDesc store.reverse

/-- Modelled from the spec: the Store operation `recent(limit, cap)`
(spec section 4.3), which is not itself a function of the repository's
source - the source only issues the fixed query of `app.get("/energy")`.
It returns up to `min limit cap` most-recent records, descending by
timestamp, ties most-recently-inserted first. -/
def recent (limit cap : Nat) (store : Store) : List Reading :=
  (byTimestampDesc store).take (min limit cap)

/-- The `app.get("/energy")` handler (server.js lines 139-147):
`find().sort({timestamp:-1}).limit(2000)`.  `q` stands for whatever
result-count parameter the caller puts in the query string; the handler
never reads `req.query`, so the parameter is unused. -/
def getEnergy (_requested : Option Nat) (store : Store) : List Reading :=
  (byTimestampDesc store).take 2000

/-- The all-null sensor record: every field takes the schema default. -/
def emptySensor : SensorData :=
  ⟨none, none, none, none, none, none, none, none, none⟩

/-- Append a sequence of records to the collection in order (a run of
consecutive saves). -/
def appendAll (rs : List Reading) (store : Store) : Store :=
  rs.foldl appendReading store

end BackendEnergy

namespace BackendEnergy

/-! Helper lemmas about the descending-timestamp ordering. -/

theorem insertDesc_of_le (r : Reading) (l : List Reading)
    (h : ∀ x ∈ l, x.timestamp ≤ r.timestamp) : insertDesc r l = r :: l := by
  cases l with
  | nil => rfl
  | cons x xs =>
    unfold insertDesc
    rw [if_neg (by exact Nat.not_lt.mpr (h x (by simp)))]

theorem mem_of_mem_insertDesc {x r : Reading} {l : List Reading}
    (h : x ∈ insertDesc r l) : x = r ∨ x ∈ l := by
  induction l with
  | nil =>
    rw [insertDesc] at h
    exact Or.inl (List.mem_singleton.mp h)
  | cons y ys ih =>
    unfold insertDesc at h
    by_cases hc : r.timestamp < y.timestamp
    · rw [if_pos hc] at h
      rcases List.mem_cons.mp h with h1 | h2
      · exact Or.inr (by simp [h1])
      · rcases ih h2 with h3 | h4
        · exact Or.inl h3
        · exact Or.inr (by simp [h4])
    · rw [if_neg hc] at h
      rcases List.mem_cons.mp h with h1 | h2
      · exact Or.inl h1
      · exact Or.inr h2

theorem mem_of_mem_sortDesc {x : Reading} {l : List Reading}
    (h : x ∈ sortDesc l) : x ∈ l := by
  induction l with
  | nil =>
    rw [sortDesc] at h
    exact h
  | cons y ys ih =>
    unfold sortDesc at h
    rcases mem_of_mem_insertDesc h with h1 | h2
    · simp [h1]
    · exact List.mem_cons_of_mem _ (ih h2)

theorem sortDesc_of_sorted (l : List Reading)
    (h : List.Chain' (fun a b => b.timestamp ≤ a.timestamp) l) :
    sortDesc l = l := by
  induction l with
  | nil => rfl
  | cons x xs ih =>
    have hxs := (List.chain'_cons'.mp h).2
    unfold sortDesc
    rw [ih hxs]
    cases xs with
    | nil => rfl
    | cons y ys =>
      have hxy : y.timestamp ≤ x.timestamp := (List.chain'_cons.mp h).1
      unfold insertDesc
      rw [if_neg (Nat.not_lt.mpr hxy)]

theorem byTimestampDesc_append (store : Store) (r : Reading)
    (h : ∀ x ∈ store, x.timestamp ≤ r.timestamp) :
    byTimestampDesc (appendReading store r) = r :: byTimestampDesc store := by
  unfold byTimestampDesc appendReading
  rw [List.reverse_append]
  show insertDesc r (sortDesc store.reverse) = _
  exact insertDesc_of_le r _ (fun x hx =>
    h x (List.mem_reverse.mp (mem_of_mem_sortDesc hx)))

theorem appendAll_eq (rs : List Reading) (store : Store) :
    appendAll rs store = store ++ rs := by
  induction rs generalizing store with
  | nil => simp [appendAll]
  | cons r rest ih =>
    show appendAll rest (appendReading store r) = _
    rw [ih, appendReading]
    simp

/-! Helper lemmas relating the Joi check and the Mongoose cast. -/

theorem mongooseCastNum_of_joi {v : JVal} {q : ℚ} (h : joiNumCast v = some q) :
    mongooseCastNum v = Except.ok (some q) := by
  cases v with
  | num p =>
    simp [joiNumCast] at h
    simp [mongooseCastNum, h]
  | str s =>
    have hp : parseNumStr s = some q := h
    simp [mongooseCastNum, hp]
  | bool b => simp [joiNumCast] at h
  | null => simp [joiNumCast] at h

theorem castField_ok_of_joiCheck {obj : RawObj} {f : String}
    (h : joiCheckField obj f = none) :
    ∃ o, mongooseCastNum (getField obj f) = Except.ok o := by
  unfold getField
  cases hl : obj.lookup f with
  | none => exact ⟨none, rfl⟩
  | some v =>
    cases hj : joiNumCast v with
    | none =>
      exfalso
      have hcontra : joiCheckField obj f = some ⟨f, "must be a number"⟩ := by
        unfold joiCheckField
        rw [hl]
        simp [hj]
      rw [hcontra] at h
      exact Option.noConfusion h
    | some q =>
      exact ⟨some q, by simpa using mongooseCastNum_of_joi hj⟩

theorem firstSome_eq_none {l : List (Option ValidationError)}
    (h : firstSome l = none) : ∀ x ∈ l, x = none := by
  induction l with
  | nil => intro x hx; simp at hx
  | cons y ys ih =>
    intro x hx
    cases y with
    | some e => simp [firstSome] at h
    | none =>
      rcases List.mem_cons.mp hx with h1 | h2
      · exact h1
      · exact ih (by simpa [firstSome] using h) x h2

theorem joiCheck_none_of_valid (obj : RawObj) (h : apiValidate obj = none)
    (f : String) (hf : f ∈ fieldNames) : joiCheckField obj f = none := by
  unfold apiValidate at h
  cases hfs : firstSome (fieldNames.map (joiCheckField obj)) with
  | some e =>
    rw [hfs] at h
    simp at h
  | none =>
    exact firstSome_eq_none hfs _ (List.mem_map_of_mem (joiCheckField obj) hf)

/-! Helper lemmas about unknown keys and the assigned timestamp. -/

theorem apiValidate_ne_none_of_unknown (obj : RawObj) (k : String) (v : JVal)
    (hk : fieldNames.contains k = false) (hmem : (k, v) ∈ obj) :
    apiValidate obj ≠ none := by
  unfold apiValidate
  cases hf : firstSome (fieldNames.map (joiCheckField obj)) with
  | some e => simp
  | none =>
    cases hfind : obj.find? (fun kv => !(fieldNames.contains kv.1)) with
    | some kv => simp
    | none =>
      exfalso
      have hx := List.find?_eq_none.mp hfind (k, v) hmem
      simp at hx
      simp at hk
      exact hk hx

theorem apiPost_rejects_of_unknown (obj : RawObj) (k : String) (v : JVal)
    (hk : fieldNames.contains k = false) (hmem : (k, v) ∈ obj)
    (store : Store) (now : Nat) :
    (apiPost obj store now).2 = store ∧
    ∃ e, (apiPost obj store now).1 = ApiResponse.badRequest e := by
  cases hval : apiValidate obj with
  | none => exact absurd hval (apiValidate_ne_none_of_unknown obj k v hk hmem)
  | some e =>
    unfold apiPost
    rw [hval]
    exact ⟨rfl, e, rfl⟩

theorem timestamp_assigned (obj : RawObj) (now : Nat) (r : Reading)
    (h : mongooseBuild obj now = Except.ok r) : r.timestamp = now := by
  unfold mongooseBuild at h
  cases hc : castAll obj with
  | error e =>
    rw [hc] at h
    exact Except.noConfusion h
  | ok d =>
    rw [hc] at h
    simp [Except.map] at h
    subst h
    rfl

theorem lookup_cons_ne {k f : String} (v : JVal) (obj : RawObj)
    (h : (f == k) = false) :
    List.lookup f ((k, v) :: obj) = List.lookup f obj := by
  simp [List.lookup, h]

theorem castAll_cons_unknown (k : String) (v : JVal) (obj : RawObj)
    (hk : fieldNames.contains k = false) :
    castAll ((k, v) :: obj) = castAll obj := by
  simp [fieldNames] at hk
  obtain ⟨h1, h2, h3, h4, h5, h6, h7, h8, h9⟩ := hk
  unfold castAll getField
  rw [lookup_cons_ne v obj (beq_eq_false_iff_ne.mpr (Ne.symm h1)),
    lookup_cons_ne v obj (beq_eq_false_iff_ne.mpr (Ne.symm h2)),
    lookup_cons_ne v obj (beq_eq_false_iff_ne.mpr (Ne.symm h3)),
    lookup_cons_ne v obj (beq_eq_false_iff_ne.mpr (Ne.symm h4)),
    lookup_cons_ne v obj (beq_eq_false_iff_ne.mpr (Ne.symm h5)),
    lookup_cons_ne v obj (beq_eq_false_iff_ne.mpr (Ne.symm h6)),
    lookup_cons_ne v obj (beq_eq_false_iff_ne.mpr (Ne.symm h7)),
    lookup_cons_ne v obj (beq_eq_false_iff_ne.mpr (Ne.symm h8)),
    lookup_cons_ne v obj (beq_eq_false_iff_ne.mpr (Ne.symm h9))]

end BackendEnergy

namespace BackendEnergy

/-- C1 counterexample: the bus-origin payload with `temperature: "hot"`
is NOT accepted and stored with that field as the unknown value, as the
claim states; the Mongoose cast fails at save time, the error is
logged, and the store is left unchanged. -/
theorem c1_counterexample :
    busHandle (some [("temperature", JVal.str "hot")]) [] 5
      = ([], [LogEntry.saveError]) := by decide

/-- C1 (amended): a payload whose `temperature` field holds a
non-numeric string is rejected on the api origin with a field-level
error naming `temperature`, and on the bus origin the save fails with a
cast error that is logged while the whole reading is dropped - nothing
is stored and the field is never silently coerced. -/
theorem c1_amended (s : String) (hs : parseNumStr s = none)
    (store : Store) (now : Nat) :
    apiPost [("temperature", JVal.str s)] store now
      = (.badRequest ⟨"temperature", "must be a number"⟩, store) ∧
    busHandle (some [("temperature", JVal.str s)]) store now
      = (store, [LogEntry.saveError]) := by
  have hj : joiNumCast (JVal.str s) = none := hs
  have hm : mongooseCastNum (JVal.str s) = Except.error ("CastError") := by
    simp [mongooseCastNum, hs]
  have hval : apiValidate [("temperature", JVal.str s)]
      = some ⟨"temperature", "must be a number"⟩ := by
    unfold apiValidate fieldNames joiCheckField
    simp [List.lookup, hj, firstSome]
  constructor
  · unfold apiPost
    rw [hval]
  · have hc : castAll [("temperature", JVal.str s)]
        = Except.error ("CastError") := by
      unfold castAll getField
      simp [List.lookup, hm, Bind.bind, Except.bind]
    simp [busHandle, mongooseBuild, hc, Except.map]

/-- C1 witness: the amended claim evaluated at the payload
`temperature: "hot"`, the empty store and time 3. -/
theorem c1_amended_witness :
    apiPost [("temperature", JVal.str "hot")] [] 3
      = (.badRequest ⟨"temperature", "must be a number"⟩, []) ∧
    busHandle (some [("temperature", JVal.str "hot")]) [] 3
      = ([], [LogEntry.saveError]) :=
  c1_amended "hot" (by decide) [] 3

/-- C2 counterexample: the manual HTTP path does NOT reject the
out-of-range value `humidity: 150` - the payload passes the Joi schema
(which has no range constraints) and is stored; the bus path stores it
too, logging a plain success line rather than a warning. -/
theorem c2_counterexample :
    apiPost [("humidity", JVal.num 150)] [] 0
      = (.created savedMsg, [⟨{ emptySensor with humidity := some 150 }, 0⟩]) ∧
    busHandle (some [("humidity", JVal.num 150)]) [] 0
      = ([⟨{ emptySensor with humidity := some 150 }, 0⟩],
         [LogEntry.saveSuccess]) := by
  decide

/-- C2 (amended): neither path enforces the ranges of spec section 3 -
a `humidity` value of any magnitude (out of range or not) is accepted
and stored unchanged by both the manual HTTP path and the bus path,
with no warning; the HTTP path rejects only wrong-typed values. -/
theorem c2_amended (q : ℚ) (store : Store) (now : Nat) :
    apiPost [("humidity", JVal.num q)] store now
      = (.created savedMsg,
         appendReading store ⟨{ emptySensor with humidity := some q }, now⟩) ∧
    busHandle (some [("humidity", JVal.num q)]) store now
      = (appendReading store ⟨{ emptySensor with humidity := some q }, now⟩,
         [LogEntry.saveSuccess]) :=
  ⟨rfl, rfl⟩

/-- C3 counterexample: the query endpoint does NOT honour a requested
result count - asking for 1 record of a 3-record store still returns
all 3, because the handler never reads the request's query string. -/
theorem c3_counterexample :
    (getEnergy (some 1)
      [⟨emptySensor, 1⟩, ⟨emptySensor, 2⟩, ⟨emptySensor, 3⟩]).length = 3 := by
  decide

/-- C3 (amended): the query endpoint ignores any caller-requested
result count (all requested values produce the same response) and
returns up to the fixed ceiling of 2000 most-recent readings. -/
theorem c3_amended (q q2 : Option Nat) (store : Store) :
    getEnergy q store = getEnergy q2 store ∧
    (getEnergy q store).length ≤ 2000 :=
  ⟨rfl, List.length_take_le 2000 (byTimestampDesc store)⟩

/-- C4 counterexample: the success response of the manual-insert
endpoint does NOT return the stored Reading - two submissions that
store different readings (different field value and timestamp) receive
the identical fixed acknowledgement body. -/
theorem c4_counterexample :
    (apiPost [("temperature", JVal.num 21)] [] 5).1
      = (apiPost [("temperature", JVal.num 22)] [] 99).1 ∧
    (apiPost [("temperature", JVal.num 21)] [] 5).2
      ≠ (apiPost [("temperature", JVal.num 22)] [] 99).2 := by decide

/-- C4 (amended): every raw payload that passes validation on the api
origin appends exactly one normalized Reading (carrying the
server-assigned timestamp) to the Store, and the caller receives the
fixed success acknowledgement message - not the stored Reading. -/
theorem c4_amended (body : RawObj) (store : Store) (now : Nat)
    (h : apiValidate body = none) :
    ∃ r, mongooseBuild body now = Except.ok r ∧
      apiPost body store now = (.created savedMsg, appendReading store r) ∧
      r.timestamp = now := by
  obtain ⟨o1, h1⟩ := castField_ok_of_joiCheck
    (joiCheck_none_of_valid body h ("temperature") (by simp [fieldNames]))
  obtain ⟨o2, h2⟩ := castField_ok_of_joiCheck
    (joiCheck_none_of_valid body h ("humidity") (by simp [fieldNames]))
  obtain ⟨o3, h3⟩ := castField_ok_of_joiCheck
    (joiCheck_none_of_valid body h ("voltage") (by simp [fieldNames]))
  obtain ⟨o4, h4⟩ := castField_ok_of_joiCheck
    (joiCheck_none_of_valid body h ("current_20A") (by simp [fieldNames]))
  obtain ⟨o5, h5⟩ := castField_ok_of_joiCheck
    (joiCheck_none_of_valid body h ("current_30A") (by simp [fieldNames]))
  obtain ⟨o6, h6⟩ := castField_ok_of_joiCheck
    (joiCheck_none_of_valid body h ("sct013") (by simp [fieldNames]))
  obtain ⟨o7, h7⟩ := castField_ok_of_joiCheck
    (joiCheck_none_of_valid body h ("waterFlow") (by simp [fieldNames]))
  obtain ⟨o8, h8⟩ := castField_ok_of_joiCheck
    (joiCheck_none_of_valid body h ("gasDetected") (by simp [fieldNames]))
  obtain ⟨o9, h9⟩ := castField_ok_of_joiCheck
    (joiCheck_none_of_valid body h ("level") (by simp [fieldNames]))
  have hca : castAll body = Except.ok ⟨o1, o2, o3, o4, o5, o6, o7, o8, o9⟩ := by
    unfold castAll
    rw [h1, h2, h3, h4, h5, h6, h7, h8, h9]
    rfl
  refine ⟨⟨⟨o1, o2, o3, o4, o5, o6, o7, o8, o9⟩, now⟩, ?_, ?_, rfl⟩
  · unfold mongooseBuild
    rw [hca]
    rfl
  · unfold apiPost
    rw [h]
    unfold mongooseBuild
    rw [hca]
    rfl

/-- C4 witness: the amended claim evaluated at the payload
`temperature: 21`, the empty store and time 5. -/
theorem c4_amended_witness :
    ∃ r, mongooseBuild [("temperature", JVal.num 21)] 5 = Except.ok r ∧
      apiPost [("temperature", JVal.num 21)] [] 5
        = (.created savedMsg, appendReading [] r) ∧
      r.timestamp = 5 :=
  c4_amended [("temperature", JVal.num 21)] [] 5 (by decide)

/-- C5 counterexample: an input-supplied timestamp never reaches the
stored record - a bus payload carrying `timestamp: 123` is stored with
the write-time value 7 instead, and an api body carrying `timestamp`
is rejected outright as an unknown key. -/
theorem c5_counterexample :
    (busHandle
      (some [("temperature", JVal.num 1), ("timestamp", JVal.num 123)])
      [] 7).1
      = [⟨{ emptySensor with temperature := some 1 }, 7⟩] ∧
    apiPost [("timestamp", JVal.num 123)] [] 7
      = (.badRequest ⟨"timestamp", "is not allowed"⟩, []) := by decide

/-- C5 (amended): every stored Reading's timestamp is assigned at
write time - any successfully built document carries the write-time
timestamp - and an input can never supply one: an api body containing
a `timestamp` key is rejected with a validation error and stores
nothing (the bus path simply ignores such a key). -/
theorem c5_amended (obj : RawObj) (now : Nat) :
    (∀ r, mongooseBuild obj now = Except.ok r → r.timestamp = now) ∧
    (∀ v store, ("timestamp", v) ∈ obj →
      (apiPost obj store now).2 = store ∧
      ∃ e, (apiPost obj store now).1 = ApiResponse.badRequest e) :=
  ⟨fun r h => timestamp_assigned obj now r h,
   fun v store hmem =>
     apiPost_rejects_of_unknown obj "timestamp" v (by decide) hmem store now⟩

/-- C5 witness: the amended claim evaluated at the empty payload with
time 7 and at the payload `timestamp: 123`. -/
theorem c5_amended_witness :
    ((⟨emptySensor, 7⟩ : Reading).timestamp = 7) ∧
    ((apiPost [("timestamp", JVal.num 123)] [] 7).2 = [] ∧
      ∃ e, (apiPost [("timestamp", JVal.num 123)] [] 7).1
        = ApiResponse.badRequest e) :=
  ⟨(c5_amended [] 7).1 ⟨emptySensor, 7⟩ rfl,
   (c5_amended [("timestamp", JVal.num 123)] 7).2 (JVal.num 123) [] (by decide)⟩

/-- C6 counterexample: on the api origin an undeclared key is NOT
ignored - the body `{foo: 1}` is rejected with the field-level error
`"foo" is not allowed` and nothing is stored. -/
theorem c6_counterexample :
    apiPost [("foo", JVal.num 1)] [] 0
      = (.badRequest ⟨"foo", "is not allowed"⟩, []) := by decide

/-- C6 (amended): a key that is not a declared Reading field is ignored
by the bus origin (the handler behaves exactly as if the key were
absent, and the key is never stored), but on the api origin its
presence causes a validation error and nothing is stored. -/
theorem c6_amended (k : String) (hk : fieldNames.contains k = false)
    (v : JVal) (obj : RawObj) (store : Store) (now : Nat) :
    busHandle (some ((k, v) :: obj)) store now
      = busHandle (some obj) store now ∧
    (apiPost ((k, v) :: obj) store now).2 = store ∧
    ∃ e, (apiPost ((k, v) :: obj) store now).1 = ApiResponse.badRequest e := by
  refine ⟨?_, apiPost_rejects_of_unknown _ k v hk (by simp) store now⟩
  simp [busHandle, mongooseBuild, castAll_cons_unknown k v obj hk]

/-- C6 witness: the amended claim evaluated at the unknown key `foo`
with value 1 over the empty payload and store. -/
theorem c6_amended_witness :
    (busHandle (some [("foo", JVal.num 1)]) [] 0 = busHandle (some []) [] 0 ∧
      (apiPost [("foo", JVal.num 1)] [] 0).2 = [] ∧
      ∃ e, (apiPost [("foo", JVal.num 1)] [] 0).1 = ApiResponse.badRequest e) :=
  c6_amended "foo" (by decide) (JVal.num 1) [] [] 0

/-- C7: appending a Reading whose timestamp is at least every stored
timestamp (as holds for the write-time clock) and then querying
`recent(1, cap)` with `cap ≥ 1` returns exactly that Reading, equal in
every field - the append/most-recent round-trip. -/
theorem c7_roundtrip (store : Store) (r : Reading) (cap : Nat)
    (hcap : 1 ≤ cap) (hts : ∀ x ∈ store, x.timestamp ≤ r.timestamp) :
    recent 1 cap (appendReading store r) = [r] := by
  unfold recent
  rw [byTimestampDesc_append store r hts, Nat.min_eq_left hcap]
  rfl

/-- C7 witness: the round-trip evaluated on a one-record store with a
fresh record of later timestamp and `cap = 1`. -/
theorem c7_roundtrip_witness :
    recent 1 1 (appendReading [⟨emptySensor, 0⟩] ⟨emptySensor, 3⟩)
      = [⟨emptySensor, 3⟩] :=
  c7_roundtrip _ _ _ (by decide) (by decide)

/-- C8: after appending `n ≤ cap` Readings in order with nondecreasing
timestamps (the write-time clock) to an empty store, `recent(n, cap)`
returns exactly those Readings in reverse order - strictly descending
by timestamp, ties broken most-recently-inserted first. -/
theorem c8_reverse_order (rs : List Reading) (cap : Nat)
    (hlen : rs.length ≤ cap)
    (hmono : List.Chain' (fun a b => a.timestamp ≤ b.timestamp) rs) :
    recent rs.length cap (appendAll rs []) = rs.reverse := by
  rw [appendAll_eq]
  unfold recent byTimestampDesc
  rw [List.nil_append, sortDesc_of_sorted _ (List.chain'_reverse.mpr hmono),
    Nat.min_eq_left hlen, ← List.length_reverse, List.take_length]

/-- C8 witness: the reverse-order property evaluated on two records
with timestamps 1 and 2 and `cap = 2`. -/
theorem c8_reverse_order_witness :
    recent 2 2 (appendAll [⟨emptySensor, 1⟩, ⟨emptySensor, 2⟩] [])
      = [⟨emptySensor, 2⟩, ⟨emptySensor, 1⟩] :=
  c8_reverse_order [⟨emptySensor, 1⟩, ⟨emptySensor, 2⟩] 2 (by decide)
    (by simp [List.chain'_cons])

/-- C9: a bus message whose payload is not parseable JSON performs no
Store write (the handler returns the store unchanged, merely logging
the parse error, and being a total function it cannot crash), and any
subsequent message is processed exactly as if the malformed one had
never arrived. -/
theorem c9_malformed (store : Store) (now : Nat) :
    busHandle none store now = (store, [LogEntry.parseError]) ∧
    (∀ msg now2, busHandle msg (busHandle none store now).1 now2
      = busHandle msg store now2) :=
  ⟨rfl, fun _ _ => rfl⟩

/-- C10: an api-origin submission whose body is the empty JSON object
passes validation and appends exactly one Reading whose sensor fields
are all the unknown value and whose timestamp is the server-assigned
write time, while the caller receives the success acknowledgement. -/
theorem c10_empty_object (store : Store) (now : Nat) :
    apiPost [] store now
      = (.created savedMsg, appendReading store ⟨emptySensor, now⟩) := rfl

end BackendEnergy
